import Mathlib

/-!
Verification development for the VTJ MCP server core
(src/MCP-Server-VTJ1.0/src/server/demoInMemoryOAuthProvider.ts,
src/MCP-Server-VTJ1.0/src/server/mcpHttpHandlers.ts, and the in-memory
event store of src/mcpAuthVtj/src/mcp/mcpServer.ts).

The JavaScript Map objects holding accounts, clients, codes, tokens,
PKCE bindings, transports and event buffers are embedded as association
lists in insertion order (Store below); Map.set updates an existing key
in place and appends an unseen key at the end, Map.delete removes the
key, and iteration follows insertion order, exactly as in the runtime.
Network effects (fetch) are passed in as oracle functions, and the
number of upstream login and data calls is returned as an observation
so that bounded-retry properties can be stated.
-/

namespace VtjSpec

/-- Association-list model of a JavaScript Map with string keys. -/
abbrev Store (α : Type) := List (String × α)

namespace Store

/-- Map.get: value at the first matching key. -/
def get {α : Type} (s : Store α) (k : String) : Option α :=
  match s with
  | [] => none
  | (k', v) :: rest => if k' = k then some v else get rest k

/-- Map.set: overwrites the value in place if the key is present,
otherwise appends the new entry at the end, as a JS Map does. -/
def set {α : Type} (s : Store α) (k : String) (v : α) : Store α :=
  match s with
  | [] => [(k, v)]
  | (k', v') :: rest => if k' = k then (k', v) :: rest else (k', v') :: set rest k v

/-- Map.delete: removes the key (a JS Map holds each key at most once). -/
def del {α : Type} (s : Store α) (k : String) : Store α :=
  match s with
  | [] => []
  | (k', v') :: rest => if k' = k then del rest k else (k', v') :: del rest k

theorem get_set_self {α : Type} (s : Store α) (k : String) (v : α) :
    (s.set k v).get k = some v := by
  induction s with
  | nil => simp [set, get]
  | cons hd tl ih =>
    obtain ⟨k', v'⟩ := hd
    by_cases h : k' = k
    · simp [set, get, h]
    · simp [set, get, h, ih]

theorem get_set_ne {α : Type} (s : Store α) (k k' : String) (v : α) (h : k' ≠ k) :
    (s.set k v).get k' = s.get k' := by
  induction s with
  | nil => simp [set, get, Ne.symm h]
  | cons hd tl ih =>
    obtain ⟨k0, v0⟩ := hd
    by_cases h0 : k0 = k
    · subst h0
      simp [set, get, Ne.symm h]
    · simp [set, get, h0, ih]

theorem get_del_self {α : Type} (s : Store α) (k : String) :
    (s.del k).get k = none := by
  induction s with
  | nil => simp [del, get]
  | cons hd tl ih =>
    obtain ⟨k', v'⟩ := hd
    by_cases h : k' = k
    · simp [del, h, ih]
    · simp [del, get, h, ih]

theorem get_del_ne {α : Type} (s : Store α) (k k' : String) (h : k' ≠ k) :
    (s.del k).get k' = s.get k' := by
  induction s with
  | nil => simp [del, get]
  | cons hd tl ih =>
    obtain ⟨k0, v0⟩ := hd
    by_cases h0 : k0 = k
    · subst h0
      simp [del, get, Ne.symm h, ih]
    · simp [del, get, h0, ih]

end Store

instance {ε α : Type} [DecidableEq ε] [DecidableEq α] : DecidableEq (Except ε α) := fun x y =>
  match x, y with
  | .ok a, .ok b =>
    if h : a = b then .isTrue (by rw [h]) else .isFalse (by intro hc; cases hc; exact h rfl)
  | .error a, .error b =>
    if h : a = b then .isTrue (by rw [h]) else .isFalse (by intro hc; cases hc; exact h rfl)
  | .ok _, .error _ => .isFalse (by intro hc; cases hc)
  | .error _, .ok _ => .isFalse (by intro hc; cases hc)

/-! ## VTJ Account Store (demoInMemoryOAuthProvider.ts, lines 14-72) -/

inductive VtjAccountStatus
  | CONNECTED
  | BROKEN_NEEDS_USER
deriving DecidableEq, Repr

/-- The per-identity account record of the VTJ account store. -/
structure VtjAccount where
  userId : String
  vtjUsername : String
  vtjPassword : String
  vtjSession : String
  depotIds : List String
  status : VtjAccountStatus
  failedLoginCount : Nat
  lastLoginAt : Nat
deriving DecidableEq, Repr

/-- getVtjAccount: lookup in the vtjAccounts map. -/
def getVtjAccount (accounts : Store VtjAccount) (userId : String) : Option VtjAccount :=
  accounts.get userId

/-- upsertVtjAccountFromLogin: full overwrite with CONNECTED status and
reset failure counter; Date.now() is passed in as the now argument. -/
def upsertVtjAccountFromLogin (accounts : Store VtjAccount)
    (userId vtjUsername vtjPassword vtjSession : String)
    (depotIds : List String) (now : Nat) : Store VtjAccount :=
  accounts.set userId
    { userId := userId
      vtjUsername := vtjUsername
      vtjPassword := vtjPassword
      vtjSession := vtjSession
      depotIds := depotIds
      status := .CONNECTED
      failedLoginCount := 0
      lastLoginAt := now }

/-- updateVtjSessionForUser: refresh session, optionally depot ids, set
CONNECTED, reset failure counter; no-op when the account is absent. -/
def updateVtjSessionForUser (accounts : Store VtjAccount)
    (userId vtjSession : String) (depotIds : Option (List String)) (now : Nat) :
    Store VtjAccount :=
  match accounts.get userId with
  | none => accounts
  | some account =>
    accounts.set userId
      { account with
        vtjSession := vtjSession
        depotIds := depotIds.getD account.depotIds
        status := .CONNECTED
        failedLoginCount := 0
        lastLoginAt := now }

/-- markVtjAccountBroken: set BROKEN_NEEDS_USER and bump the failure
counter; no-op when the account is absent. -/
def markVtjAccountBroken (accounts : Store VtjAccount) (userId : String) :
    Store VtjAccount :=
  match accounts.get userId with
  | none => accounts
  | some account =>
    accounts.set userId
      { account with
        status := .BROKEN_NEEDS_USER
        failedLoginCount := account.failedLoginCount + 1 }

/-! ## Upstream HTTP model (vtjClient part of mcpHttpHandlers.ts) -/

/-- A fetch response: status code, the parsed JSON payload when
resp.json() succeeds (none models the catch-to-null fallback), and the
raw body text. resp.ok is derived as 200-299, as for fetch Response. -/
structure HttpResp where
  status : Nat
  json : Option String
  text : String
deriving DecidableEq, Repr

def HttpResp.ok (r : HttpResp) : Bool :=
  decide (200 ≤ r.status) && decide (r.status < 300)

/-- The depots array of a VTJ login response user object: each element
carries its string _id field when present (the source filters
non-string ids away). -/
structure VtjLoginUser where
  id : String
  email : String
  depots : Option (List (Option String))
deriving DecidableEq, Repr

/-- Parsed JSON body of the VTJ login endpoint. The truthiness checks
of the source map to: user is truthy iff some, session is truthy iff
nonempty. -/
structure VtjLoginBody where
  responseCode : Int
  user : Option VtjLoginUser
  session : String
deriving DecidableEq, Repr

/-- Typed outcomes for the thrown errors of the VTJ client, one
constructor per throw site. -/
inductive VtjErr
  | noAccount
  | noDepotIds
  | credentialsInvalid
  | reloginHttpError
  | reloginBadResponse
  | accountMissingAfterRelogin
  | sessionUnrecoverable
  | depotApiErrorAfterRelogin (status : Nat)
  | depotApiError (status : Nat)
deriving DecidableEq, Repr

/-- vtjReloginWithStoredCredentials: one POST to the login endpoint with
the stored credentials; on HTTP failure or malformed body the account is
marked broken; on success the session and depot ids are refreshed.
The third component counts calls made to the upstream login endpoint. -/
def vtjReloginWithStoredCredentials (accounts : Store VtjAccount) (userId : String)
    (fetchLogin : String → String → HttpResp × VtjLoginBody) (now : Nat) :
    Except VtjErr VtjAccount × Store VtjAccount × Nat :=
  match getVtjAccount accounts userId with
  | none => (.error .noAccount, accounts, 0)
  | some account =>
    let rb := fetchLogin account.vtjUsername account.vtjPassword
    if rb.1.ok = false then
      (.error .reloginHttpError, markVtjAccountBroken accounts userId, 1)
    else
      match rb.2.user with
      | none => (.error .reloginBadResponse, markVtjAccountBroken accounts userId, 1)
      | some user =>
        if rb.2.responseCode ≠ 1 ∨ rb.2.session = "" then
          (.error .reloginBadResponse, markVtjAccountBroken accounts userId, 1)
        else
          let depotIds := (user.depots.getD []).filterMap (fun x => x)
          let accounts1 := updateVtjSessionForUser accounts userId rb.2.session (some depotIds) now
          match getVtjAccount accounts1 userId with
          | none => (.error .accountMissingAfterRelogin, accounts1, 1)
          | some updated => (.ok updated, accounts1, 1)

/-- The effective depot id: the argument when truthy, else the first
stored depot id, else none (which the caller turns into an error). -/
def effectiveDepotId (account : VtjAccount) (depotId : Option String) : Option String :=
  match depotId with
  | some d => if d ≠ "" then some d else account.depotIds.head?
  | none => account.depotIds.head?

/-- Result of one orchestrator invocation: the payload or typed error,
the account store afterwards, and observation counters for the number
of upstream login calls and upstream depot-data calls performed. -/
structure OrchOut where
  result : Except VtjErr (Option String)
  accounts : Store VtjAccount
  loginCalls : Nat
  dataCalls : Nat
deriving DecidableEq, Repr

/-- callVtjDepotApiWithAutoRelogin: first data call with the current
session; on ok return the payload; on 401/403 either short-circuit when
the account is already broken, or perform exactly one re-login and one
retry; any other status is surfaced without touching the account. -/
def callVtjDepotApiWithAutoRelogin (accounts : Store VtjAccount) (userId : String)
    (depotId : Option String) (fetchData : String → String → HttpResp)
    (fetchLogin : String → String → HttpResp × VtjLoginBody) (now : Nat) : OrchOut :=
  match getVtjAccount accounts userId with
  | none => ⟨.error .noAccount, accounts, 0, 0⟩
  | some account =>
    match effectiveDepotId account depotId with
    | none => ⟨.error .noDepotIds, accounts, 0, 0⟩
    | some eff =>
      let resp := fetchData eff account.vtjSession
      if resp.ok then
        ⟨.ok resp.json, accounts, 0, 1⟩
      else if resp.status = 401 ∨ resp.status = 403 then
        if account.status = .BROKEN_NEEDS_USER then
          ⟨.error .credentialsInvalid, accounts, 0, 1⟩
        else
          match vtjReloginWithStoredCredentials accounts userId fetchLogin now with
          | (.error e, accounts1, n) => ⟨.error e, accounts1, n, 1⟩
          | (.ok updated, accounts1, n) =>
            let resp2 := fetchData eff updated.vtjSession
            if resp2.ok then
              ⟨.ok resp2.json, accounts1, n, 2⟩
            else if resp2.status = 401 ∨ resp2.status = 403 then
              ⟨.error .sessionUnrecoverable, markVtjAccountBroken accounts1 userId, n, 2⟩
            else
              ⟨.error (.depotApiErrorAfterRelogin resp2.status), accounts1, n, 2⟩
      else
        ⟨.error (.depotApiError resp.status), accounts, 0, 1⟩

/-! ## OAuth data model (demoInMemoryOAuthProvider.ts) -/

/-- Client registration record, with the fields this server reads and
writes (OAuthClientInformationFull as constructed by the lazy PKCE
registration path). -/
structure OAuthClientInformationFull where
  client_id : String
  token_endpoint_auth_method : String
  grant_types : List String
  response_types : List String
  redirect_uris : List String
deriving DecidableEq, Repr

/-- AuthorizationParams as consumed by this provider; the resource URL
is kept as an opaque string. -/
structure AuthorizationParams where
  redirectUri : String
  codeChallenge : Option String
  scopes : Option (List String)
  state : Option String
  resource : Option String
deriving DecidableEq, Repr

/-- The value stored in the codes map: the issuing client and the
authorization parameters of the flow. -/
structure CodeData where
  client : OAuthClientInformationFull
  params : AuthorizationParams
deriving DecidableEq, Repr

/-- AuthInfo as stored in the tokens map. The extra object either holds
a userId or is empty, so it is embedded as an optional user id. -/
structure AuthInfo where
  token : String
  clientId : String
  scopes : List String
  expiresAt : Nat
  resource : Option String
  extra : Option String
deriving DecidableEq, Repr

/-- The mutable state of DemoInMemoryAuthProvider together with the
clients store: registered clients, pending codes, issued tokens, and
the PKCE-challenge-to-identity binding map. -/
structure ProviderState where
  clients : Store OAuthClientInformationFull
  codes : Store CodeData
  tokens : Store AuthInfo
  codeChallengeUserContext : Store String
deriving DecidableEq, Repr

/-- Splits a character list at the first scheme separator, yielding the
scheme characters and the remainder. -/
def splitSchemeSep : List Char → Option (List Char × List Char)
  | [] => none
  | ':' :: '/' :: '/' :: rest => some ([], rest)
  | c :: rest => (splitSchemeSep rest).map (fun p => (c :: p.1, p.2))

/-- Authority part: the characters before the first slash, question
mark or hash. -/
def takeAuthority : List Char → List Char
  | [] => []
  | c :: rest =>
    if c = '/' ∨ c = '?' ∨ c = '#' then [] else c :: takeAuthority rest

/-- Splits a character list on a separator character. -/
def splitChar (sep : Char) : List Char → List (List Char)
  | [] => [[]]
  | c :: rest =>
    let r := splitChar sep rest
    if c = sep then [] :: r
    else
      match r with
      | [] => [[c]]
      | h :: t => (c :: h) :: t

/-- Hostname of an absolute URL, modelling the WHATWG URL parsing the
source applies via new URL on the http-style URIs this system handles:
the part between the scheme separator and the first slash, question
mark or hash, with userinfo and port stripped; parse failure (no scheme
separator, empty scheme or empty host) is none, as the try-catch of the
source returns false there. -/
def urlHostname (uri : String) : Option String :=
  match splitSchemeSep uri.toList with
  | none => none
  | some (scheme, rest) =>
    if scheme = [] then none
    else
      let authority := takeAuthority rest
      let hostport := (splitChar '@' authority).getLastD authority
      let host := (splitChar ':' hostport).headD []
      if host = [] then none else some (String.mk host)

/-- isLoopbackRedirect: hostname is localhost or 127.0.0.1. -/
def isLoopbackRedirect (uri : String) : Bool :=
  match urlHostname uri with
  | some h => h == "localhost" || h == "127.0.0.1"
  | none => false

/-- ensurePublicPkceClient: an already-registered client gets the
redirect uri appended when absent; an unseen client is registered with
exactly this redirect uri after the loopback check; a non-loopback
redirect uri for an unseen client is rejected. -/
def ensurePublicPkceClient (clients : Store OAuthClientInformationFull)
    (client_id redirect_uri : String) :
    Except Unit (Store OAuthClientInformationFull) :=
  match clients.get client_id with
  | some existing =>
    if redirect_uri ∈ existing.redirect_uris then .ok clients
    else
      .ok (clients.set client_id
        { existing with redirect_uris := existing.redirect_uris ++ [redirect_uri] })
  | none =>
    if isLoopbackRedirect redirect_uri then
      .ok (clients.set client_id
        { client_id := client_id
          token_endpoint_auth_method := "none"
          grant_types := ["authorization_code"]
          response_types := ["code"]
          redirect_uris := [redirect_uri] })
    else .error ()

/-- Error of the authorize method: the InvalidRequestError thrown for
an unregistered redirect uri. -/
inductive AuthzError
  | invalidRequest
deriving DecidableEq, Repr

/-- DemoInMemoryAuthProvider.authorize: generates a code (passed in for
the randomUUID call), stores it in the codes map, and only then checks
that the redirect uri is registered for the client; on success the
redirect target carries the code and, when present, the state. -/
def authorize (st : ProviderState) (client : OAuthClientInformationFull)
    (params : AuthorizationParams) (code : String) :
    Except AuthzError (String × String × Option String) × ProviderState :=
  let st1 := { st with codes := st.codes.set code ⟨client, params⟩ }
  if params.redirectUri ∈ client.redirect_uris then
    (.ok (params.redirectUri, code, params.state), st1)
  else
    (.error .invalidRequest, st1)

/-- Errors of exchangeAuthorizationCode, one constructor per throw
site; the first two are the InvalidGrant conditions of the error
taxonomy. -/
inductive ExchangeError
  | invalidCode
  | clientMismatch
  | invalidResource
deriving DecidableEq, Repr

def ExchangeError.isInvalidGrant : ExchangeError → Bool
  | .invalidCode => true
  | .clientMismatch => true
  | .invalidResource => false

/-- The token response of a successful exchange. -/
structure OAuthTokensOut where
  access_token : String
  token_type : String
  expires_in : Nat
  scope : String
deriving DecidableEq, Repr

/-- Truthiness-aware resource validation gate of the exchange: the
source checks the validateResource callback only when it was
configured, and rejects when it returns false. -/
def resourceRejected (validateResource : Option (Option String → Bool))
    (resource : Option String) : Bool :=
  match validateResource with
  | some f => !(f resource)
  | none => false

/-- DemoInMemoryAuthProvider.exchangeAuthorizationCode: rejects an
unknown code, a code issued to a different client, or a rejected
resource; otherwise deletes the code, resolves the user id from the
PKCE-challenge binding for the code challenge of the flow when that
challenge is truthy (deleting the binding either way), stores the new
token with a one-hour expiry, and returns the bearer response. The
fresh token string and Date.now() are passed in. -/
def exchangeAuthorizationCode (st : ProviderState)
    (validateResource : Option (Option String → Bool))
    (client : OAuthClientInformationFull) (authorizationCode : String)
    (newToken : String) (now : Nat) :
    Except ExchangeError OAuthTokensOut × ProviderState :=
  match st.codes.get authorizationCode with
  | none => (.error .invalidCode, st)
  | some codeData =>
    if codeData.client.client_id ≠ client.client_id then
      (.error .clientMismatch, st)
    else if resourceRejected validateResource codeData.params.resource then
      (.error .invalidResource, st)
    else
      let st1 := { st with codes := st.codes.del authorizationCode }
      let step :=
        match codeData.params.codeChallenge with
        | some cc =>
          if cc ≠ "" then
            (st1.codeChallengeUserContext.get cc,
             { st1 with codeChallengeUserContext := st1.codeChallengeUserContext.del cc })
          else (none, st1)
        | none => (none, st1)
      let userId := step.1
      let st2 := step.2
      let extra : Option String :=
        match userId with
        | some u => if u ≠ "" then some u else none
        | none => none
      let tokenData : AuthInfo :=
        { token := newToken
          clientId := client.client_id
          scopes := codeData.params.scopes.getD []
          expiresAt := now + 3600000
          resource := codeData.params.resource
          extra := extra }
      let st3 := { st2 with tokens := st2.tokens.set newToken tokenData }
      (.ok { access_token := newToken
             token_type := "bearer"
             expires_in := 3600
             scope := String.intercalate " " (codeData.params.scopes.getD []) }, st3)

/-- DemoInMemoryAuthProvider.verifyAccessToken: rejects an unknown
token, a falsy expiry, or an expiry in the past; otherwise returns the
record with the expiry converted to seconds, keeping extra. -/
def verifyAccessToken (st : ProviderState) (now : Nat) (token : String) :
    Except Unit AuthInfo :=
  match st.tokens.get token with
  | none => .error ()
  | some tokenData =>
    if tokenData.expiresAt = 0 ∨ tokenData.expiresAt < now then .error ()
    else
      .ok { tokenData with expiresAt := tokenData.expiresAt / 1000 }

/-- Account lookup performed by the introspection handler: only a
truthy user id in the token extra is resolved against the account
store. -/
def resolvedAccount (extra : Option String) (accounts : Store VtjAccount) :
    Option VtjAccount :=
  match extra with
  | some u => if u ≠ "" then getVtjAccount accounts u else none
  | none => none

def VtjAccountStatus.asString : VtjAccountStatus → String
  | .CONNECTED => "CONNECTED"
  | .BROKEN_NEEDS_USER => "BROKEN_NEEDS_USER"

/-- JSON body of a successful introspection response. -/
structure IntrospectOk where
  client_id : String
  scope : String
  exp : Nat
  aud : Option String
  user_id : Option String
  vtj_session : Option String
  depot_ids : List String
  vtj_status : String
deriving DecidableEq, Repr

/-- Outcome of the introspection endpoint: 400 for a missing token,
401 with active false when verification throws, else 200 with the
joined body. -/
inductive IntrospectResult
  | badRequest
  | unauthorized
  | ok (body : IntrospectOk)
deriving DecidableEq, Repr

/-- The POST /introspect handler: requires a truthy token, verifies it,
resolves the account of the bound identity when present, and always
answers 200 active with empty depot list and the literal UNKNOWN status
when no account is found; verification failure maps to 401 active
false. -/
def introspectHandler (st : ProviderState) (accounts : Store VtjAccount)
    (now : Nat) (token : Option String) : IntrospectResult :=
  match token with
  | none => .badRequest
  | some t =>
    if t = "" then .badRequest
    else
      match verifyAccessToken st now t with
      | .error _ => .unauthorized
      | .ok tokenInfo =>
        let account := resolvedAccount tokenInfo.extra accounts
        .ok
          { client_id := tokenInfo.clientId
            scope := String.intercalate " " tokenInfo.scopes
            exp := tokenInfo.expiresAt
            aud := tokenInfo.resource
            user_id := tokenInfo.extra
            vtj_session := account.map (fun a => a.vtjSession)
            depot_ids := (account.map (fun a => a.depotIds)).getD []
            vtj_status := (account.map (fun a => a.status.asString)).getD "UNKNOWN" }

/-! ## Tool-invocation session manager (mcpHttpHandlers.ts) -/

/-- The transport onclose cleanup installed by createMcpPostHandler:
when the transport has a truthy session id that is present in the
transports map, the id is deleted from both the transports map and the
sessionAuth map; otherwise both maps are left alone. The transport and
auth-context values are opaque here. -/
def oncloseCleanup {τ χ : Type} (sid : Option String)
    (transports : Store τ) (sessionAuth : Store χ) : Store τ × Store χ :=
  match sid with
  | none => (transports, sessionAuth)
  | some s =>
    if s ≠ "" ∧ (transports.get s).isSome then
      (transports.del s, sessionAuth.del s)
    else (transports, sessionAuth)

/-! ## In-memory event store (mcpAuthVtj/src/mcp/mcpServer.ts) -/

/-- One buffered event of a stream: its generated id and message. -/
structure EventMsg where
  eventId : String
  message : String
deriving DecidableEq, Repr

/-- InMemoryEventStore.storeEvent: bump the global counter, derive the
event id from it, and append the event to the buffer of the stream,
creating the buffer on first use. Returns the new map, counter and the
event id. -/
def storeEvent (events : Store (List EventMsg)) (counter : Nat)
    (streamId : String) (message : String) :
    Store (List EventMsg) × Nat × String :=
  let counter1 := counter + 1
  let eventId := "event-" ++ toString counter1
  let current := (events.get streamId).getD []
  (events.set streamId (current ++ [⟨eventId, message⟩]), counter1, eventId)

/-- The findIndex-then-slice step of replayEventsAfter: the events
strictly after the first occurrence of the id in the buffer, or none
when the id does not occur (findIndex returning minus one). -/
def sliceAfter (evs : List EventMsg) (eventId : String) : Option (List EventMsg) :=
  match evs with
  | [] => none
  | e :: rest => if e.eventId = eventId then some rest else sliceAfter rest eventId

/-- Target stream of a replay: an existing stream id, or a fresh stream
(the randomUUID branch) when the id is unknown. -/
inductive ReplayTarget
  | resumed (streamId : String)
  | freshStream
deriving DecidableEq, Repr

/-- InMemoryEventStore.replayEventsAfter: walk the streams in map
insertion order; the first stream whose buffer contains the id has the
events after that id sent in buffer order and its stream id returned;
when no stream contains the id, nothing is replayed and a fresh stream
id is generated. The first component lists the replayed events in send
order. -/
def replayEventsAfter (events : Store (List EventMsg)) (lastEventId : String) :
    List EventMsg × ReplayTarget :=
  match events with
  | [] => ([], .freshStream)
  | (streamId, evs) :: rest =>
    match sliceAfter evs lastEventId with
    | some tail => (tail, .resumed streamId)
    | none => replayEventsAfter rest lastEventId

/-! ## Derived observations used by the statements below -/

/-- Success observation on an Except value. -/
def exOk {ε α : Type} : Except ε α → Bool
  | .ok _ => true
  | .error _ => false

/-- Whether an exchange outcome is an InvalidGrant failure in the sense
of the error taxonomy (unknown code or client mismatch). -/
def resultInvalidGrant : Except ExchangeError OAuthTokensOut → Bool
  | .error e => e.isInvalidGrant
  | .ok _ => false

/-- Redirect uris registered for a client after a successful lazy
registration call, none when the call rejected. -/
def ensureOkUris (clients : Store OAuthClientInformationFull) (cid uri : String) :
    Option (List String) :=
  match ensurePublicPkceClient clients cid uri with
  | .ok s => (s.get cid).map (fun c => c.redirect_uris)
  | .error _ => none

/-! ## Theorems -/

theorem markVtjAccountBroken_get_self (accounts : Store VtjAccount) (userId : String)
    (a : VtjAccount) (h : accounts.get userId = some a) :
    (markVtjAccountBroken accounts userId).get userId =
      some { a with status := .BROKEN_NEEDS_USER, failedLoginCount := a.failedLoginCount + 1 } := by
  unfold markVtjAccountBroken
  rw [h]
  exact Store.get_set_self _ _ _

theorem updateVtjSessionForUser_get_self (accounts : Store VtjAccount)
    (userId vtjSession : String) (depotIds : Option (List String)) (now : Nat)
    (a : VtjAccount) (h : accounts.get userId = some a) :
    (updateVtjSessionForUser accounts userId vtjSession depotIds now).get userId =
      some { a with
        vtjSession := vtjSession
        depotIds := depotIds.getD a.depotIds
        status := .CONNECTED
        failedLoginCount := 0
        lastLoginAt := now } := by
  unfold updateVtjSessionForUser
  rw [h]
  exact Store.get_set_self _ _ _

/-- Claim C9: when a transport with a live session id closes, that id is
removed from both the transports map and the sessionAuth map, and every
other key keeps its value in both maps. -/
theorem claim_C9_close_purges_session {τ χ : Type}
    (transports : Store τ) (sessionAuth : Store χ) (s : String)
    (hs : s ≠ "") (hp : (transports.get s).isSome = true) :
    (oncloseCleanup (some s) transports sessionAuth).1.get s = none ∧
    (oncloseCleanup (some s) transports sessionAuth).2.get s = none ∧
    ∀ k, k ≠ s →
      (oncloseCleanup (some s) transports sessionAuth).1.get k = transports.get k ∧
      (oncloseCleanup (some s) transports sessionAuth).2.get k = sessionAuth.get k := by
  have hcond : s ≠ "" ∧ (transports.get s).isSome = true := ⟨hs, hp⟩
  simp only [oncloseCleanup, if_pos hcond]
  refine ⟨Store.get_del_self _ _, Store.get_del_self _ _, ?_⟩
  intro k hk
  exact ⟨Store.get_del_ne _ _ _ hk, Store.get_del_ne _ _ _ hk⟩

/-- Witness for claim C9 on a concrete pair of maps with two sessions. -/
theorem claim_C9_close_purges_session_witness :
    (oncloseCleanup (some "a") ([("a", 1), ("b", 2)] : Store Nat)
      ([("a", 10), ("b", 20)] : Store Nat)).1.get "a" = none ∧
    (oncloseCleanup (some "a") ([("a", 1), ("b", 2)] : Store Nat)
      ([("a", 10), ("b", 20)] : Store Nat)).2.get "b" = some 20 := by
  have h := claim_C9_close_purges_session
    ([("a", 1), ("b", 2)] : Store Nat) ([("a", 10), ("b", 20)] : Store Nat)
    "a" (by decide) (by decide)
  refine ⟨h.1, ?_⟩
  rw [(h.2.2 "b" (by decide)).2]
  decide

/-- Claim C10: a token that verifies but carries no resolvable account
identity still introspects as HTTP 200 active, with an empty depot list
and the literal UNKNOWN upstream status. -/
theorem claim_C10_introspect_unknown_identity (st : ProviderState)
    (accounts : Store VtjAccount) (now : Nat) (t : String) (td : AuthInfo)
    (ht0 : t ≠ "") (ht : st.tokens.get t = some td)
    (hexp0 : td.expiresAt ≠ 0) (hexp1 : ¬ td.expiresAt < now)
    (hacct : resolvedAccount td.extra accounts = none) :
    introspectHandler st accounts now (some t) =
      .ok { client_id := td.clientId
            scope := String.intercalate " " td.scopes
            exp := td.expiresAt / 1000
            aud := td.resource
            user_id := td.extra
            vtj_session := none
            depot_ids := []
            vtj_status := "UNKNOWN" } := by
  have hcond : ¬ (td.expiresAt = 0 ∨ td.expiresAt < now) := by
    rintro (h | h)
    · exact hexp0 h
    · exact hexp1 h
  simp only [introspectHandler, verifyAccessToken, ht, if_neg ht0, if_neg hcond, hacct,
    Option.map_none', Option.getD_none]

/-- Witness for claim C10: a valid token bound to an identity with no
account record introspects as active with UNKNOWN status. -/
theorem claim_C10_introspect_unknown_identity_witness :
    introspectHandler
      ⟨[], [], [("tok", ⟨"tok", "cid", ["mcp:tools"], 3600000, none, some "ghost"⟩)], []⟩
      [] 0 (some "tok") =
      .ok { client_id := "cid"
            scope := String.intercalate " " ["mcp:tools"]
            exp := 3600000 / 1000
            aud := none
            user_id := some "ghost"
            vtj_session := none
            depot_ids := []
            vtj_status := "UNKNOWN" } := by
  exact claim_C10_introspect_unknown_identity
    ⟨[], [], [("tok", ⟨"tok", "cid", ["mcp:tools"], 3600000, none, some "ghost"⟩)], []⟩
    [] 0 "tok" ⟨"tok", "cid", ["mcp:tools"], 3600000, none, some "ghost"⟩
    (by decide) (by decide) (by decide) (by decide) (by decide)

theorem sliceAfter_eq_none (evs : List EventMsg) (eventId : String)
    (h : ∀ e ∈ evs, e.eventId ≠ eventId) : sliceAfter evs eventId = none := by
  induction evs with
  | nil => rfl
  | cons e rest ih =>
    have he : e.eventId ≠ eventId := h e (List.mem_cons_self e rest)
    simp only [sliceAfter, if_neg he]
    exact ih (fun x hx => h x (List.mem_cons_of_mem e hx))

theorem sliceAfter_split (preEvs rest : List EventMsg) (eventId m : String)
    (h : ∀ e ∈ preEvs, e.eventId ≠ eventId) :
    sliceAfter (preEvs ++ ⟨eventId, m⟩ :: rest) eventId = some rest := by
  induction preEvs with
  | nil => simp [sliceAfter]
  | cons e pre ih =>
    have he : e.eventId ≠ eventId := h e (List.mem_cons_self e pre)
    simp only [List.cons_append, sliceAfter, if_neg he]
    exact ih (fun x hx => h x (List.mem_cons_of_mem e hx))

/-- Claim C8: when some stream buffer contains the last event id (first
occurrence at an arbitrary position, with no earlier stream containing
it), replay delivers exactly the events recorded strictly after that
id, in original buffer order, resuming that stream; when no buffer
contains the id, nothing is replayed and a fresh stream is started. -/
theorem claim_C8_replay_after_last_event_id (events : Store (List EventMsg))
    (eid : String) :
    (∀ pre streamId preEvs m rest post,
        events = pre ++ (streamId, preEvs ++ ⟨eid, m⟩ :: rest) :: post →
        (∀ p ∈ pre, ∀ e ∈ p.2, e.eventId ≠ eid) →
        (∀ e ∈ preEvs, e.eventId ≠ eid) →
        replayEventsAfter events eid = (rest, .resumed streamId)) ∧
    ((∀ p ∈ events, ∀ e ∈ p.2, e.eventId ≠ eid) →
        replayEventsAfter events eid = ([], .freshStream)) := by
  constructor
  · intro pre
    induction pre generalizing events with
    | nil =>
      intro streamId preEvs m rest post hev hpre hfirst
      subst hev
      simp only [List.nil_append, replayEventsAfter,
        sliceAfter_split preEvs rest eid m hfirst]
    | cons p pre ih =>
      intro streamId preEvs m rest post hev hpre hfirst
      subst hev
      obtain ⟨sid0, evs0⟩ := p
      have h0 : ∀ e ∈ evs0, e.eventId ≠ eid :=
        hpre (sid0, evs0) (List.mem_cons_self _ _)
      simp only [List.cons_append, replayEventsAfter, sliceAfter_eq_none evs0 eid h0]
      exact ih (pre ++ (streamId, preEvs ++ ⟨eid, m⟩ :: rest) :: post) streamId preEvs m rest
        post rfl (fun q hq => hpre q (List.mem_cons_of_mem _ hq)) hfirst
  · intro h
    induction events with
    | nil => rfl
    | cons p rest ih =>
      obtain ⟨sid0, evs0⟩ := p
      have h0 : ∀ e ∈ evs0, e.eventId ≠ eid := h (sid0, evs0) (List.mem_cons_self _ _)
      simp only [replayEventsAfter, sliceAfter_eq_none evs0 eid h0]
      exact ih (fun q hq => h q (List.mem_cons_of_mem _ hq))

/-- Witness for claim C8: a stream with three buffered events, resumed
from the first event id, replays exactly the later two in order. -/
theorem claim_C8_replay_after_last_event_id_witness :
    replayEventsAfter
      [("s1", [⟨"event-1", "a"⟩, ⟨"event-2", "b"⟩, ⟨"event-3", "c"⟩])] "event-1" =
      ([⟨"event-2", "b"⟩, ⟨"event-3", "c"⟩], .resumed "s1") := by
  exact (claim_C8_replay_after_last_event_id
      [("s1", [⟨"event-1", "a"⟩, ⟨"event-2", "b"⟩, ⟨"event-3", "c"⟩])] "event-1").1
    [] "s1" [] "a" [⟨"event-2", "b"⟩, ⟨"event-3", "c"⟩] [] rfl
    (by intro p hp; cases hp) (by intro e he; cases he)

/-- Claim C6 counterexample: authorize with a redirect uri that is not
registered for the client does fail with InvalidRequest, yet the
authorization code has already been stored in the codes map and is
retained, refuting the no-code-retained part of the claim. -/
theorem claim_C6_counterexample :
    (authorize ⟨[], [], [], []⟩
        ⟨"clientA", "none", ["authorization_code"], ["code"], ["http://localhost:3000/cb"]⟩
        ⟨"http://localhost:9999/other", some "chal", none, none, none⟩
        "code-1").1 = .error .invalidRequest ∧
    ((authorize ⟨[], [], [], []⟩
        ⟨"clientA", "none", ["authorization_code"], ["code"], ["http://localhost:3000/cb"]⟩
        ⟨"http://localhost:9999/other", some "chal", none, none, none⟩
        "code-1").2.codes.get "code-1").isSome = true := by
  constructor
  · decide
  · decide

/-- Claim C6 amended: authorize with an unregistered redirect uri fails
with InvalidRequest, but the freshly minted authorization code has
already been stored before the validation and stays in the code store
referencing the client and parameters of the rejected request. -/
theorem claim_C6_unregistered_redirect (st : ProviderState)
    (client : OAuthClientInformationFull) (params : AuthorizationParams) (code : String)
    (h : params.redirectUri ∉ client.redirect_uris) :
    (authorize st client params code).1 = .error .invalidRequest ∧
    (authorize st client params code).2.codes.get code = some ⟨client, params⟩ := by
  unfold authorize
  simp only [if_neg h]
  exact ⟨by simp, Store.get_set_self _ _ _⟩

/-- Witness for the amended claim C6 at a concrete rejected request. -/
theorem claim_C6_unregistered_redirect_witness :
    (authorize ⟨[], [], [], []⟩
        ⟨"c2", "none", ["authorization_code"], ["code"], ["http://localhost:1/cb"]⟩
        ⟨"http://localhost:2/cb", none, none, none, none⟩ "code-9").1 =
      .error .invalidRequest ∧
    (authorize ⟨[], [], [], []⟩
        ⟨"c2", "none", ["authorization_code"], ["code"], ["http://localhost:1/cb"]⟩
        ⟨"http://localhost:2/cb", none, none, none, none⟩ "code-9").2.codes.get "code-9" =
      some ⟨⟨"c2", "none", ["authorization_code"], ["code"], ["http://localhost:1/cb"]⟩,
        ⟨"http://localhost:2/cb", none, none, none, none⟩⟩ := by
  exact claim_C6_unregistered_redirect ⟨[], [], [], []⟩
    ⟨"c2", "none", ["authorization_code"], ["code"], ["http://localhost:1/cb"]⟩
    ⟨"http://localhost:2/cb", none, none, none, none⟩ "code-9" (by decide)

/-- Claim C3 counterexample: for a client that is already registered
with a loopback redirect uri, the lazy registration path accepts a
non-loopback redirect uri and appends it to the registration, refuting
that non-loopback redirect uris are always rejected. -/
theorem claim_C3_counterexample :
    isLoopbackRedirect "http://evil.example/cb" = false ∧
    ensureOkUris
      [("clientA", ⟨"clientA", "none", ["authorization_code"], ["code"],
        ["http://localhost:3000/cb"]⟩)]
      "clientA" "http://evil.example/cb" =
      some ["http://localhost:3000/cb", "http://evil.example/cb"] := by
  constructor
  · decide
  · decide

/-- Claim C3 amended: the loopback-only rule is enforced only for an
unseen client id, where a loopback redirect uri becomes the single
registered uri and a non-loopback one is rejected; for an already
registered client id the call always succeeds and the redirect uri,
loopback or not, ends up among the registered uris (appended when it
was absent). -/
theorem claim_C3_lazy_registration (clients : Store OAuthClientInformationFull)
    (cid uri : String) :
    (clients.get cid = none →
      (isLoopbackRedirect uri = true → ensureOkUris clients cid uri = some [uri]) ∧
      (isLoopbackRedirect uri = false →
        ensurePublicPkceClient clients cid uri = .error ())) ∧
    (∀ existing, clients.get cid = some existing →
      ensureOkUris clients cid uri =
        some (if uri ∈ existing.redirect_uris then existing.redirect_uris
              else existing.redirect_uris ++ [uri])) := by
  constructor
  · intro hnone
    constructor
    · intro hloop
      unfold ensureOkUris ensurePublicPkceClient
      rw [hnone]
      simp only [hloop, if_pos]
      rw [Store.get_set_self]
      rfl
    · intro hloop
      unfold ensurePublicPkceClient
      rw [hnone]
      simp [hloop]
  · intro existing hsome
    unfold ensureOkUris ensurePublicPkceClient
    rw [hsome]
    by_cases hmem : uri ∈ existing.redirect_uris
    · simp only [if_pos hmem]
      rw [hsome]
      rfl
    · simp only [if_neg hmem]
      rw [Store.get_set_self]
      rfl

/-- Witness for the amended claim C3: an unseen client with a loopback
redirect uri is registered with exactly that uri. -/
theorem claim_C3_lazy_registration_witness :
    ensureOkUris [] "newClient" "http://localhost:4242/cb" =
      some ["http://localhost:4242/cb"] := by
  exact ((claim_C3_lazy_registration [] "newClient" "http://localhost:4242/cb").1
    (by decide)).1 (by decide)

theorem exchange_success_facts (st : ProviderState)
    (vr : Option (Option String → Bool)) (client : OAuthClientInformationFull)
    (code newToken : String) (now : Nat) (codeData : CodeData)
    (hcode : st.codes.get code = some codeData)
    (hclient : codeData.client.client_id = client.client_id)
    (hres : resourceRejected vr codeData.params.resource = false) :
    exOk (exchangeAuthorizationCode st vr client code newToken now).1 = true ∧
    (exchangeAuthorizationCode st vr client code newToken now).2.codes =
      st.codes.del code := by
  have hni : ¬ codeData.client.client_id ≠ client.client_id := by simp [hclient]
  simp only [exchangeAuthorizationCode, hcode, if_neg hni, hres, Bool.false_eq_true,
    if_false]
  cases hcc : codeData.params.codeChallenge with
  | none => exact ⟨by simp [exOk], rfl⟩
  | some cc =>
    by_cases hne : cc ≠ ""
    · simp only [if_pos hne]
      exact ⟨by simp [exOk], by simp⟩
    · simp only [if_neg hne]
      exact ⟨by simp [exOk], by simp⟩

theorem exchange_unknown_code (st : ProviderState)
    (vr : Option (Option String → Bool)) (client : OAuthClientInformationFull)
    (code newToken : String) (now : Nat) (h : st.codes.get code = none) :
    exchangeAuthorizationCode st vr client code newToken now =
      (.error .invalidCode, st) := by
  simp only [exchangeAuthorizationCode, h]

theorem exchange_client_mismatch (st : ProviderState)
    (vr : Option (Option String → Bool)) (client : OAuthClientInformationFull)
    (code newToken : String) (now : Nat) (codeData : CodeData)
    (h : st.codes.get code = some codeData)
    (hm : codeData.client.client_id ≠ client.client_id) :
    exchangeAuthorizationCode st vr client code newToken now =
      (.error .clientMismatch, st) := by
  simp only [exchangeAuthorizationCode, h, if_pos hm]

/-- Claim C2: under a valid exchange (known code, matching client,
accepted resource), a PKCE binding for the code challenge of the flow
makes the stored access token carry that identity and the binding is
deleted; with no binding (challenge absent, or present but unbound) the
exchange still succeeds and the stored token carries no identity. -/
theorem claim_C2_exchange_identity_binding (st : ProviderState)
    (vr : Option (Option String → Bool)) (client : OAuthClientInformationFull)
    (code newToken : String) (now : Nat) (codeData : CodeData)
    (hcode : st.codes.get code = some codeData)
    (hclient : codeData.client.client_id = client.client_id)
    (hres : resourceRejected vr codeData.params.resource = false) :
    (∀ cc uid, codeData.params.codeChallenge = some cc → cc ≠ "" → uid ≠ "" →
      st.codeChallengeUserContext.get cc = some uid →
      exOk (exchangeAuthorizationCode st vr client code newToken now).1 = true ∧
      ((exchangeAuthorizationCode st vr client code newToken now).2.tokens.get
        newToken).map AuthInfo.extra = some (some uid) ∧
      (exchangeAuthorizationCode st vr client code newToken
        now).2.codeChallengeUserContext.get cc = none) ∧
    (codeData.params.codeChallenge = none →
      exOk (exchangeAuthorizationCode st vr client code newToken now).1 = true ∧
      ((exchangeAuthorizationCode st vr client code newToken now).2.tokens.get
        newToken).map AuthInfo.extra = some none) ∧
    (∀ cc, codeData.params.codeChallenge = some cc → cc ≠ "" →
      st.codeChallengeUserContext.get cc = none →
      exOk (exchangeAuthorizationCode st vr client code newToken now).1 = true ∧
      ((exchangeAuthorizationCode st vr client code newToken now).2.tokens.get
        newToken).map AuthInfo.extra = some none) := by
  have hni : ¬ codeData.client.client_id ≠ client.client_id := by simp [hclient]
  refine ⟨?_, ?_, ?_⟩
  · intro cc uid hcc hccne huidne hbind
    simp only [exchangeAuthorizationCode, hcode, if_neg hni, hres, Bool.false_eq_true,
      if_false, hcc, if_pos hccne, hbind, if_pos huidne]
    refine ⟨rfl, ?_, ?_⟩
    · rw [Store.get_set_self]
      rfl
    · exact Store.get_del_self _ _
  · intro hcc
    simp only [exchangeAuthorizationCode, hcode, if_neg hni, hres, Bool.false_eq_true,
      if_false, hcc]
    refine ⟨rfl, ?_⟩
    rw [Store.get_set_self]
    rfl
  · intro cc hcc hccne hbind
    simp only [exchangeAuthorizationCode, hcode, if_neg hni, hres, Bool.false_eq_true,
      if_false, hcc, if_pos hccne, hbind]
    refine ⟨rfl, ?_⟩
    rw [Store.get_set_self]
    rfl

/-- Witness for claim C2: a bound challenge yields a token whose extra
carries the bound identity and the binding is gone afterwards. -/
theorem claim_C2_exchange_identity_binding_witness :
    exOk (exchangeAuthorizationCode
      ⟨[], [("code-1", ⟨⟨"cA", "none", ["authorization_code"], ["code"],
        ["http://localhost:3000/cb"]⟩,
        ⟨"http://localhost:3000/cb", some "chal-1", some ["mcp:tools"], none, none⟩⟩)],
        [], [("chal-1", "user-7")]⟩
      none ⟨"cA", "none", ["authorization_code"], ["code"], ["http://localhost:3000/cb"]⟩
      "code-1" "tok-1" 0).1 = true ∧
    ((exchangeAuthorizationCode
      ⟨[], [("code-1", ⟨⟨"cA", "none", ["authorization_code"], ["code"],
        ["http://localhost:3000/cb"]⟩,
        ⟨"http://localhost:3000/cb", some "chal-1", some ["mcp:tools"], none, none⟩⟩)],
        [], [("chal-1", "user-7")]⟩
      none ⟨"cA", "none", ["authorization_code"], ["code"], ["http://localhost:3000/cb"]⟩
      "code-1" "tok-1" 0).2.tokens.get "tok-1").map AuthInfo.extra = some (some "user-7") ∧
    (exchangeAuthorizationCode
      ⟨[], [("code-1", ⟨⟨"cA", "none", ["authorization_code"], ["code"],
        ["http://localhost:3000/cb"]⟩,
        ⟨"http://localhost:3000/cb", some "chal-1", some ["mcp:tools"], none, none⟩⟩)],
        [], [("chal-1", "user-7")]⟩
      none ⟨"cA", "none", ["authorization_code"], ["code"], ["http://localhost:3000/cb"]⟩
      "code-1" "tok-1" 0).2.codeChallengeUserContext.get "chal-1" = none := by
  exact (claim_C2_exchange_identity_binding
      ⟨[], [("code-1", ⟨⟨"cA", "none", ["authorization_code"], ["code"],
        ["http://localhost:3000/cb"]⟩,
        ⟨"http://localhost:3000/cb", some "chal-1", some ["mcp:tools"], none, none⟩⟩)],
        [], [("chal-1", "user-7")]⟩
      none ⟨"cA", "none", ["authorization_code"], ["code"], ["http://localhost:3000/cb"]⟩
      "code-1" "tok-1" 0
      ⟨⟨"cA", "none", ["authorization_code"], ["code"], ["http://localhost:3000/cb"]⟩,
        ⟨"http://localhost:3000/cb", some "chal-1", some ["mcp:tools"], none, none⟩⟩
      (by decide) (by decide) (by decide)).1
    "chal-1" "user-7" (by decide) (by decide) (by decide) (by decide)

/-- Claim C5: an authorization code is single use and exchange fails
closed: a valid first exchange succeeds and a second exchange of the
same code fails as InvalidGrant leaving the state unchanged; an unknown
code or a code issued to a different client fails as InvalidGrant with
the state unchanged, so no token is issued in the failure cases. -/
theorem claim_C5_code_single_use (st : ProviderState)
    (vr : Option (Option String → Bool)) (client client2 : OAuthClientInformationFull)
    (code newToken newToken2 : String) (now now2 : Nat) :
    (∀ codeData, st.codes.get code = some codeData →
      codeData.client.client_id = client.client_id →
      resourceRejected vr codeData.params.resource = false →
      exOk (exchangeAuthorizationCode st vr client code newToken now).1 = true ∧
      resultInvalidGrant (exchangeAuthorizationCode
        (exchangeAuthorizationCode st vr client code newToken now).2
        vr client2 code newToken2 now2).1 = true ∧
      (exchangeAuthorizationCode
        (exchangeAuthorizationCode st vr client code newToken now).2
        vr client2 code newToken2 now2).2 =
        (exchangeAuthorizationCode st vr client code newToken now).2) ∧
    (st.codes.get code = none →
      resultInvalidGrant (exchangeAuthorizationCode st vr client code newToken now).1 =
        true ∧
      (exchangeAuthorizationCode st vr client code newToken now).2 = st) ∧
    (∀ codeData, st.codes.get code = some codeData →
      codeData.client.client_id ≠ client.client_id →
      resultInvalidGrant (exchangeAuthorizationCode st vr client code newToken now).1 =
        true ∧
      (exchangeAuthorizationCode st vr client code newToken now).2 = st) := by
  refine ⟨?_, ?_, ?_⟩
  · intro codeData hcode hclient hres
    have hfacts := exchange_success_facts st vr client code newToken now codeData
      hcode hclient hres
    have hgone : (exchangeAuthorizationCode st vr client code newToken
        now).2.codes.get code = none := by
      rw [hfacts.2]
      exact Store.get_del_self _ _
    rw [exchange_unknown_code _ vr client2 code newToken2 now2 hgone]
    exact ⟨hfacts.1, rfl, rfl⟩
  · intro hnone
    rw [exchange_unknown_code st vr client code newToken now hnone]
    exact ⟨rfl, rfl⟩
  · intro codeData hcode hmismatch
    rw [exchange_client_mismatch st vr client code newToken now codeData hcode hmismatch]
    exact ⟨rfl, rfl⟩

/-- Witness for claim C5: a concrete code exchanged twice succeeds once
and then fails as InvalidGrant with unchanged state. -/
theorem claim_C5_code_single_use_witness :
    exOk (exchangeAuthorizationCode
      ⟨[], [("code-5", ⟨⟨"cB", "none", ["authorization_code"], ["code"],
        ["http://localhost:3000/cb"]⟩,
        ⟨"http://localhost:3000/cb", none, none, none, none⟩⟩)], [], []⟩
      none ⟨"cB", "none", ["authorization_code"], ["code"], ["http://localhost:3000/cb"]⟩
      "code-5" "tok-5" 0).1 = true ∧
    resultInvalidGrant (exchangeAuthorizationCode
      (exchangeAuthorizationCode
        ⟨[], [("code-5", ⟨⟨"cB", "none", ["authorization_code"], ["code"],
          ["http://localhost:3000/cb"]⟩,
          ⟨"http://localhost:3000/cb", none, none, none, none⟩⟩)], [], []⟩
        none ⟨"cB", "none", ["authorization_code"], ["code"],
          ["http://localhost:3000/cb"]⟩ "code-5" "tok-5" 0).2
      none ⟨"cB", "none", ["authorization_code"], ["code"], ["http://localhost:3000/cb"]⟩
      "code-5" "tok-6" 1).1 = true := by
  have h := (claim_C5_code_single_use
      ⟨[], [("code-5", ⟨⟨"cB", "none", ["authorization_code"], ["code"],
        ["http://localhost:3000/cb"]⟩,
        ⟨"http://localhost:3000/cb", none, none, none, none⟩⟩)], [], []⟩
      none ⟨"cB", "none", ["authorization_code"], ["code"], ["http://localhost:3000/cb"]⟩
      ⟨"cB", "none", ["authorization_code"], ["code"], ["http://localhost:3000/cb"]⟩
      "code-5" "tok-5" "tok-6" 0 1).1
      ⟨⟨"cB", "none", ["authorization_code"], ["code"], ["http://localhost:3000/cb"]⟩,
        ⟨"http://localhost:3000/cb", none, none, none, none⟩⟩
      (by decide) (by decide) (by decide)
  exact ⟨h.1, h.2.1⟩

theorem status_401_403_not_ok (r : HttpResp) (h : r.status = 401 ∨ r.status = 403) :
    r.ok = false := by
  rcases h with h | h <;> simp [HttpResp.ok, h]

theorem orch_broken_facts (accounts : Store VtjAccount) (userId : String)
    (depotId : Option String) (fetchData : String → String → HttpResp)
    (fetchLogin : String → String → HttpResp × VtjLoginBody) (now : Nat)
    (a : VtjAccount) (ha : getVtjAccount accounts userId = some a)
    (hb : a.status = .BROKEN_NEEDS_USER) :
    (callVtjDepotApiWithAutoRelogin accounts userId depotId fetchData fetchLogin
      now).loginCalls = 0 ∧
    (callVtjDepotApiWithAutoRelogin accounts userId depotId fetchData fetchLogin
      now).accounts = accounts ∧
    (∀ eff, effectiveDepotId a depotId = some eff →
      ((fetchData eff a.vtjSession).status = 401 ∨
        (fetchData eff a.vtjSession).status = 403) →
      (callVtjDepotApiWithAutoRelogin accounts userId depotId fetchData fetchLogin
        now).result = .error .credentialsInvalid) := by
  simp only [callVtjDepotApiWithAutoRelogin, ha]
  cases heff : effectiveDepotId a depotId with
  | none =>
    refine ⟨by simp, by simp, ?_⟩
    intro eff heff' _
    exact Option.noConfusion heff'
  | some eff =>
    by_cases hok : (fetchData eff a.vtjSession).ok = true
    · simp only [hok, if_true]
      refine ⟨by simp, by simp, ?_⟩
      intro eff' heff' hst
      injection heff' with he
      subst he
      rw [status_401_403_not_ok _ hst] at hok
      cases hok
    · simp only [Bool.not_eq_true] at hok
      simp only [hok, Bool.false_eq_true, if_false]
      by_cases hst0 : (fetchData eff a.vtjSession).status = 401 ∨
          (fetchData eff a.vtjSession).status = 403
      · simp [hst0, hb]
      · simp only [if_neg hst0]
        refine ⟨by simp, by simp, ?_⟩
        intro eff' heff' hst
        injection heff' with he
        subst he
        exact absurd hst hst0

/-- Claim C1 counterexample: an invocation of the orchestrator on an
account in BROKEN_NEEDS_USER status does not fail immediately; the
upstream data call is performed first (one data call), and when it
succeeds the payload is even returned, rather than failing with
UpstreamCredentialsInvalid before any data call. -/
theorem claim_C1_counterexample :
    (callVtjDepotApiWithAutoRelogin
      [("u1", ⟨"u1", "mail-a", "pw", "sess0", ["d1"], .BROKEN_NEEDS_USER, 1, 0⟩)]
      "u1" (some "d1") (fun _ _ => ⟨200, some "payload", "payload"⟩)
      (fun _ _ => (⟨500, none, ""⟩, ⟨0, none, ""⟩)) 5).result = .ok (some "payload") ∧
    (callVtjDepotApiWithAutoRelogin
      [("u1", ⟨"u1", "mail-a", "pw", "sess0", ["d1"], .BROKEN_NEEDS_USER, 1, 0⟩)]
      "u1" (some "d1") (fun _ _ => ⟨200, some "payload", "payload"⟩)
      (fun _ _ => (⟨500, none, ""⟩, ⟨0, none, ""⟩)) 5).dataCalls = 1 := by
  exact ⟨rfl, rfl⟩

/-- Claim C1 amended: on an account in BROKEN_NEEDS_USER the
orchestrator never performs a re-login and leaves the account store
unchanged, but it does issue the upstream data call first; only when
that call comes back 401 or 403 does it fail with the
credentials-invalid error, and the broken state persists until an
interactive login overwrites the account. -/
theorem claim_C1_broken_short_circuit (accounts : Store VtjAccount) (userId : String)
    (depotId : Option String) (fetchData : String → String → HttpResp)
    (fetchLogin : String → String → HttpResp × VtjLoginBody) (now : Nat)
    (a : VtjAccount) (ha : getVtjAccount accounts userId = some a)
    (hb : a.status = .BROKEN_NEEDS_USER) :
    (callVtjDepotApiWithAutoRelogin accounts userId depotId fetchData fetchLogin
      now).loginCalls = 0 ∧
    (callVtjDepotApiWithAutoRelogin accounts userId depotId fetchData fetchLogin
      now).accounts = accounts ∧
    (∀ eff, effectiveDepotId a depotId = some eff →
      ((fetchData eff a.vtjSession).status = 401 ∨
        (fetchData eff a.vtjSession).status = 403) →
      (callVtjDepotApiWithAutoRelogin accounts userId depotId fetchData fetchLogin
        now).result = .error .credentialsInvalid) :=
  orch_broken_facts accounts userId depotId fetchData fetchLogin now a ha hb

/-- Witness for the amended claim C1: a broken account with a data call
answering 401 yields the credentials-invalid error with no login call. -/
theorem claim_C1_broken_short_circuit_witness :
    (callVtjDepotApiWithAutoRelogin
      [("u2", ⟨"u2", "mail-b", "pw", "sessX", ["d2"], .BROKEN_NEEDS_USER, 2, 0⟩)]
      "u2" none (fun _ _ => ⟨401, none, "unauthorized"⟩)
      (fun _ _ => (⟨200, some "x", "x"⟩, ⟨1, some ⟨"u2", "mail-b", some []⟩, "s"⟩))
      9).loginCalls = 0 ∧
    (callVtjDepotApiWithAutoRelogin
      [("u2", ⟨"u2", "mail-b", "pw", "sessX", ["d2"], .BROKEN_NEEDS_USER, 2, 0⟩)]
      "u2" none (fun _ _ => ⟨401, none, "unauthorized"⟩)
      (fun _ _ => (⟨200, some "x", "x"⟩, ⟨1, some ⟨"u2", "mail-b", some []⟩, "s"⟩))
      9).result = .error .credentialsInvalid := by
  have h := claim_C1_broken_short_circuit
    [("u2", ⟨"u2", "mail-b", "pw", "sessX", ["d2"], .BROKEN_NEEDS_USER, 2, 0⟩)]
    "u2" none (fun _ _ => ⟨401, none, "unauthorized"⟩)
    (fun _ _ => (⟨200, some "x", "x"⟩, ⟨1, some ⟨"u2", "mail-b", some []⟩, "s"⟩))
    9 ⟨"u2", "mail-b", "pw", "sessX", ["d2"], .BROKEN_NEEDS_USER, 2, 0⟩
    (by decide) (by decide)
  exact ⟨h.1, h.2.2 "d2" (by decide) (by decide)⟩

theorem relogin_cases (accounts : Store VtjAccount) (userId : String)
    (fetchLogin : String → String → HttpResp × VtjLoginBody) (now : Nat)
    (a : VtjAccount) (ha : getVtjAccount accounts userId = some a) :
    vtjReloginWithStoredCredentials accounts userId fetchLogin now =
      (.error .reloginHttpError, markVtjAccountBroken accounts userId, 1) ∨
    vtjReloginWithStoredCredentials accounts userId fetchLogin now =
      (.error .reloginBadResponse, markVtjAccountBroken accounts userId, 1) ∨
    ∃ u a1, vtjReloginWithStoredCredentials accounts userId fetchLogin now =
        (.ok u, a1, 1) ∧
      getVtjAccount a1 userId = some u ∧ u.status = .CONNECTED := by
  simp only [vtjReloginWithStoredCredentials, ha]
  by_cases hok : (fetchLogin a.vtjUsername a.vtjPassword).1.ok = false
  · left
    simp [hok]
  · simp only [Bool.not_eq_false] at hok
    simp only [hok, Bool.true_eq_false, if_false]
    cases hu : (fetchLogin a.vtjUsername a.vtjPassword).2.user with
    | none =>
      right; left
      rfl
    | some user =>
      by_cases hbad : (fetchLogin a.vtjUsername a.vtjPassword).2.responseCode ≠ 1 ∨
          (fetchLogin a.vtjUsername a.vtjPassword).2.session = ""
      · right; left
        simp [hbad]
      · right; right
        have hget := updateVtjSessionForUser_get_self accounts userId
          (fetchLogin a.vtjUsername a.vtjPassword).2.session
          (some ((user.depots.getD []).filterMap (fun x => x))) now a ha
        refine ⟨_, _, ?_, hget, rfl⟩
        simp only [if_neg hbad, getVtjAccount, hget]

theorem relogin_loginCalls_le (accounts : Store VtjAccount) (userId : String)
    (fetchLogin : String → String → HttpResp × VtjLoginBody) (now : Nat) :
    (vtjReloginWithStoredCredentials accounts userId fetchLogin now).2.2 ≤ 1 := by
  cases hacc : getVtjAccount accounts userId with
  | none =>
    unfold vtjReloginWithStoredCredentials
    simp [hacc]
  | some a =>
    rcases relogin_cases accounts userId fetchLogin now a hacc with
      h | h | ⟨u, a1, h, _, _⟩ <;> simp [h]

theorem orch_connected_cases (accounts : Store VtjAccount) (userId : String)
    (depotId : Option String) (fetchData : String → String → HttpResp)
    (fetchLogin : String → String → HttpResp × VtjLoginBody) (now : Nat)
    (a : VtjAccount) (ha : getVtjAccount accounts userId = some a)
    (hconn : a.status = .CONNECTED) :
    (callVtjDepotApiWithAutoRelogin accounts userId depotId fetchData fetchLogin
      now).accounts = accounts ∨
    (((callVtjDepotApiWithAutoRelogin accounts userId depotId fetchData fetchLogin
        now).result = .error .reloginHttpError ∨
      (callVtjDepotApiWithAutoRelogin accounts userId depotId fetchData fetchLogin
        now).result = .error .reloginBadResponse) ∧
      (callVtjDepotApiWithAutoRelogin accounts userId depotId fetchData fetchLogin
        now).accounts = markVtjAccountBroken accounts userId) ∨
    (callVtjDepotApiWithAutoRelogin accounts userId depotId fetchData fetchLogin
      now).result = .error .sessionUnrecoverable ∨
    (∃ u a1, (callVtjDepotApiWithAutoRelogin accounts userId depotId fetchData
        fetchLogin now).accounts = a1 ∧
      getVtjAccount a1 userId = some u ∧ u.status = .CONNECTED) := by
  simp only [callVtjDepotApiWithAutoRelogin, ha]
  cases heff : effectiveDepotId a depotId with
  | none => exact Or.inl rfl
  | some eff =>
    by_cases hok : (fetchData eff a.vtjSession).ok = true
    · simp only [hok, if_true]
      exact Or.inl trivial
    · simp only [Bool.not_eq_true] at hok
      simp only [hok, Bool.false_eq_true, if_false]
      by_cases hst : (fetchData eff a.vtjSession).status = 401 ∨
          (fetchData eff a.vtjSession).status = 403
      · simp only [if_pos hst]
        have hnb : ¬ a.status = VtjAccountStatus.BROKEN_NEEDS_USER := by
          rw [hconn]
          intro hc
          cases hc
        simp only [if_neg hnb]
        rcases relogin_cases accounts userId fetchLogin now a ha with
          h1 | h2 | ⟨u, a1, h3, hga, hustat⟩
        · simp [h1]
        · simp [h2]
        · simp only [h3]
          by_cases hok2 : (fetchData eff u.vtjSession).ok = true
          · simp only [hok2, if_true]
            exact Or.inr (Or.inr (Or.inr ⟨u, a1, rfl, hga, hustat⟩))
          · simp only [Bool.not_eq_true] at hok2
            simp only [hok2, Bool.false_eq_true, if_false]
            by_cases hst2 : (fetchData eff u.vtjSession).status = 401 ∨
                (fetchData eff u.vtjSession).status = 403
            · simp only [if_pos hst2]
              exact Or.inr (Or.inr (Or.inl trivial))
            · simp only [if_neg hst2]
              exact Or.inr (Or.inr (Or.inr ⟨u, a1, rfl, hga, hustat⟩))
      · simp only [if_neg hst]
        exact Or.inl trivial

/-- Claim C4: the orchestrator moves an account from CONNECTED to
BROKEN_NEEDS_USER only when the re-login attempt itself fails (HTTP
error or malformed response) or when the retry after a successful
re-login is still unauthorized; it never moves a broken account back to
CONNECTED, which only the interactive login upsert does. -/
theorem claim_C4_status_transitions (accounts : Store VtjAccount) (userId : String)
    (depotId : Option String) (fetchData : String → String → HttpResp)
    (fetchLogin : String → String → HttpResp × VtjLoginBody) (now : Nat) :
    ((getVtjAccount accounts userId).map VtjAccount.status = some .CONNECTED →
      (getVtjAccount (callVtjDepotApiWithAutoRelogin accounts userId depotId fetchData
        fetchLogin now).accounts userId).map VtjAccount.status =
        some .BROKEN_NEEDS_USER →
      (callVtjDepotApiWithAutoRelogin accounts userId depotId fetchData fetchLogin
        now).result = .error .reloginHttpError ∨
      (callVtjDepotApiWithAutoRelogin accounts userId depotId fetchData fetchLogin
        now).result = .error .reloginBadResponse ∨
      (callVtjDepotApiWithAutoRelogin accounts userId depotId fetchData fetchLogin
        now).result = .error .sessionUnrecoverable) ∧
    ((getVtjAccount accounts userId).map VtjAccount.status =
        some .BROKEN_NEEDS_USER →
      (getVtjAccount (callVtjDepotApiWithAutoRelogin accounts userId depotId fetchData
        fetchLogin now).accounts userId).map VtjAccount.status =
        some .BROKEN_NEEDS_USER) ∧
    (∀ uid uname pwd sess dd n2,
      (getVtjAccount (upsertVtjAccountFromLogin accounts uid uname pwd sess dd n2)
        uid).map VtjAccount.status = some .CONNECTED) := by
  refine ⟨?_, ?_, ?_⟩
  · intro hconn hfinal
    cases hacc : getVtjAccount accounts userId with
    | none =>
      rw [hacc] at hconn
      simp at hconn
    | some a =>
      rw [hacc] at hconn
      simp only [Option.map_some', Option.some.injEq] at hconn
      rcases orch_connected_cases accounts userId depotId fetchData fetchLogin now a
          hacc hconn with hsame | ⟨hres, _⟩ | hres | ⟨u, a1, hacct, hga, hustat⟩
      · rw [hsame, hacc] at hfinal
        simp [hconn] at hfinal
      · rcases hres with h | h
        · exact Or.inl h
        · exact Or.inr (Or.inl h)
      · exact Or.inr (Or.inr hres)
      · rw [hacct, hga] at hfinal
        simp [hustat] at hfinal
  · intro hbroken
    cases hacc : getVtjAccount accounts userId with
    | none => rw [hacc] at hbroken; cases hbroken
    | some a =>
      rw [hacc] at hbroken
      simp only [Option.map_some', Option.some.injEq] at hbroken
      rw [(orch_broken_facts accounts userId depotId fetchData fetchLogin now a hacc
        hbroken).2.1, hacc, Option.map_some', hbroken]
  · intro uid uname pwd sess dd n2
    simp only [upsertVtjAccountFromLogin, getVtjAccount, Store.get_set_self,
      Option.map_some']

/-- Witness for claim C4: a broken account stays broken across an
orchestrator invocation whose data call succeeds. -/
theorem claim_C4_status_transitions_witness :
    (getVtjAccount (callVtjDepotApiWithAutoRelogin
      [("u3", ⟨"u3", "mail-c", "pw", "sessY", ["d3"], .BROKEN_NEEDS_USER, 3, 0⟩)]
      "u3" none (fun _ _ => ⟨200, some "ok", "ok"⟩)
      (fun _ _ => (⟨200, some "x", "x"⟩, ⟨1, some ⟨"u3", "mail-c", some []⟩, "s"⟩))
      11).accounts "u3").map VtjAccount.status = some .BROKEN_NEEDS_USER := by
  exact (claim_C4_status_transitions
    [("u3", ⟨"u3", "mail-c", "pw", "sessY", ["d3"], .BROKEN_NEEDS_USER, 3, 0⟩)]
    "u3" none (fun _ _ => ⟨200, some "ok", "ok"⟩)
    (fun _ _ => (⟨200, some "x", "x"⟩, ⟨1, some ⟨"u3", "mail-c", some []⟩, "s"⟩))
    11).2.1 (by decide)

/-- Claim C7: every single orchestrator invocation performs at most one
upstream login call and at most two upstream data calls, so the
original call is retried at most once and there is no recursion. -/
theorem claim_C7_bounded_retry (accounts : Store VtjAccount) (userId : String)
    (depotId : Option String) (fetchData : String → String → HttpResp)
    (fetchLogin : String → String → HttpResp × VtjLoginBody) (now : Nat) :
    (callVtjDepotApiWithAutoRelogin accounts userId depotId fetchData fetchLogin
      now).loginCalls ≤ 1 ∧
    (callVtjDepotApiWithAutoRelogin accounts userId depotId fetchData fetchLogin
      now).dataCalls ≤ 2 := by
  cases hacc : getVtjAccount accounts userId with
  | none =>
    unfold callVtjDepotApiWithAutoRelogin
    simp [hacc]
  | some a =>
    unfold callVtjDepotApiWithAutoRelogin
    simp only [hacc]
    cases heff : effectiveDepotId a depotId with
    | none => simp [heff]
    | some eff =>
      simp only [heff]
      by_cases hok : (fetchData eff a.vtjSession).ok = true
      · simp [hok]
      · by_cases hst : (fetchData eff a.vtjSession).status = 401 ∨
            (fetchData eff a.vtjSession).status = 403
        · by_cases hbr : a.status = VtjAccountStatus.BROKEN_NEEDS_USER
          · simp [hok, hst, hbr]
          · rcases hrel : vtjReloginWithStoredCredentials accounts userId fetchLogin now
              with ⟨res, a1, n⟩
            have hn : n ≤ 1 := by
              have h := relogin_loginCalls_le accounts userId fetchLogin now
              rw [hrel] at h
              exact h
            cases res with
            | error e => simp [hok, hst, hbr, hrel, hn]
            | ok u =>
              by_cases hok2 : (fetchData eff u.vtjSession).ok = true
              · simp [hok, hst, hbr, hrel, hok2, hn]
              · by_cases hst2 : (fetchData eff u.vtjSession).status = 401 ∨
                    (fetchData eff u.vtjSession).status = 403
                · simp [hok, hst, hbr, hrel, hok2, hst2, hn]
                · simp [hok, hst, hbr, hrel, hok2, hst2, hn]
        · simp [hok, hst]

end VtjSpec
